import Mathlib

/-!
Shallow embedding of the prescriber-analysis pipeline implemented in
src/app.py (a Streamlit app).  The pipeline, in source order:

* read the uploaded CSV with encoding utf-8-sig, falling back to euc-kr on
  a UnicodeDecodeError (app.py lines 25-32);
* normalize column labels: drop newline / carriage-return / tab characters,
  strip surrounding whitespace, remove all remaining spaces (lines 34-42);
* if a "조제일" (dispensing-date) column exists, drop every row whose value
  there equals "합계" (grand total) (lines 44-46);
* if no "처방의사" (prescriber) column exists, report an error and stop
  (lines 48-51);
* group by prescriber, count, sort descending by count, compute each
  group's percentage of the grand total (lines 53-61);
* if more than 10 groups, keep the first 10 and append one synthetic
  "기타" (Other) row carrying the summed count and percentage of the rest
  (lines 63-77);
* optionally rasterize the two charts to PNG temp files and assemble a PDF
  (create_pdf_with_charts, lines 144-210), and optionally save the final
  table to a CSV path (lines 132-141).

Machine floats of pandas are modelled as exact rationals (ℚ); DataFrame
cells are Option String, a missing (NaN) cell being none.  pandas
sort_values uses an unstable sort, so the relative order of groups with
equal counts is unspecified in the source; the embedding fixes one
deterministic order (a stable insertion sort over the grouped list), and no
theorem below depends on the order chosen among equal counts.
-/

/-- A DataFrame cell: none models a missing value (NaN). -/
abbrev Cell := Option String

/-- A DataFrame: column labels plus rows of cells, addressed positionally. -/
structure Table where
  header : List String
  rows : List (List Cell)
deriving DecidableEq

/-- Characters removed by the three str.replace calls on app.py lines 37-39. -/
def isErasedCtl (c : Char) : Bool :=
  c == '\n' || c == '\r' || c == '\t'

/-- Leading/trailing-whitespace strip, the str.strip() of app.py line 40. -/
def trimWs (l : List Char) : List Char :=
  ((l.dropWhile Char.isWhitespace).reverse.dropWhile Char.isWhitespace).reverse

/-- Column-label cleaning of app.py lines 35-42: remove newline,
carriage-return and tab characters, strip surrounding whitespace, then
remove every remaining space character. -/
def normalizeLabel (s : String) : String :=
  String.mk ((trimWs (s.toList.filter (fun c => !(isErasedCtl c)))).filter (fun c => !(c == ' ')))

/-- Position of a column label in the header, none when absent
(the Python tests use label membership in df.columns). -/
def colIndex (header : List String) (name : String) : Option ℕ :=
  header.findIdx? (fun c => c == name)

/-- Cell of a row at a column position; a row shorter than the header reads
as missing, as pandas pads short CSV records with NaN. -/
def cellAt (row : List Cell) (i : ℕ) : Cell :=
  row.getD i none

/-- app.py lines 35-42: normalize every column label. -/
def normalizeHeaders (t : Table) : Table :=
  ⟨t.header.map normalizeLabel, t.rows⟩

/-- app.py lines 44-46: when a "조제일" column exists, keep only rows whose
value there differs from "합계"; a missing cell also differs from it, as
NaN != "합계" holds in pandas. -/
def dropTotalRows (t : Table) : Table :=
  match colIndex t.header "조제일" with
  | none => t
  | some i => ⟨t.header, t.rows.filter (fun r => !(cellAt r i == some "합계"))⟩

/-- The Normalizer stage: label cleaning followed by grand-total-row
removal.  Its output is the CleanTable of the specification. -/
def normalizeTable (t : Table) : Table :=
  dropTotalRows (normalizeHeaders t)

/-- Values of the prescriber column, skipping missing cells: pandas groupby
silently drops rows whose grouping key is NaN (app.py line 54). -/
def prescriberValues (t : Table) : List String :=
  match colIndex t.header "처방의사" with
  | none => []
  | some i => t.rows.filterMap (fun r => cellAt r i)

/-- Distinct grouping keys.  Same algorithm as Mathlib's List.dedup, kept
structural so that concrete tables evaluate; the key order is irrelevant
because the grouped list is re-sorted by count immediately afterwards. -/
def dedupKeys : List String → List String
  | [] => []
  | x :: xs => if x ∈ xs then dedupKeys xs else x :: dedupKeys xs

/-- app.py lines 53-57: one (identity, count) pair per distinct prescriber. -/
def groupCounts (vals : List String) : List (String × ℕ) :=
  (dedupKeys vals).map (fun k => (k, vals.count k))

/-- Comparison used by sort_values(by=count, ascending=False) on line 58. -/
abbrev byCountDesc : String × ℕ → String × ℕ → Prop :=
  fun a b => b.2 ≤ a.2

instance : IsTotal (String × ℕ) byCountDesc :=
  ⟨fun a b => Nat.le_total b.2 a.2⟩

instance : IsTrans (String × ℕ) byCountDesc :=
  ⟨fun _ _ _ h1 h2 => Nat.le_trans h2 h1⟩

/-- app.py line 58: the grouped counts sorted descending by count. -/
def sortedCounts (vals : List String) : List (String × ℕ) :=
  List.insertionSort byCountDesc (groupCounts vals)

/-- app.py line 60: total_count, the sum of the count column. -/
def totalCount (l : List (String × ℕ)) : ℕ :=
  (l.map Prod.snd).sum

/-- One row of the final report: identity, count, percentage share. -/
structure SharedRow where
  identity : String
  count : ℕ
  percentage : ℚ
deriving DecidableEq

/-- app.py line 61: attach 점유율(%) = count / total_count * 100 to every
grouped row; the divisor is the sum of the group counts. -/
def withPercentages (l : List (String × ℕ)) : List SharedRow :=
  l.map (fun p => ⟨p.1, p.2, (p.2 : ℚ) / (totalCount l : ℚ) * 100⟩)

/-- Identity of the synthetic Other row (app.py line 71). -/
def otherLabel : String := "기타"

/-- app.py lines 64-77: when more than 10 rows exist, keep the first 10 and
append one synthetic 기타 row summing count and percentage of the rest;
otherwise return the table unchanged. -/
def topNCollapse (l : List SharedRow) : List SharedRow :=
  if 10 < l.length then
    l.take 10 ++
      [⟨otherLabel, ((l.drop 10).map SharedRow.count).sum,
        ((l.drop 10).map SharedRow.percentage).sum⟩]
  else l

/-- The Aggregator stage: group, count, sort, attach percentages. -/
def aggregate (t : Table) : List SharedRow :=
  withPercentages (sortedCounts (prescriberValues t))

/-- The only failure the post-ingestion pipeline can report: the prescriber
column is absent (app.py lines 49-51).  No EmptyDatasetError exists in the
source. -/
inductive PipelineError where
  | schemaError : String → PipelineError
deriving DecidableEq

/-- The pipeline from a parsed table to the final report table, mirroring
app.py lines 34-77: normalize, check for the prescriber column, aggregate,
collapse the tail into 기타. -/
def runPipeline (t : Table) : Except PipelineError (List SharedRow) :=
  if colIndex (normalizeTable t).header "처방의사" = none then
    Except.error (PipelineError.schemaError "처방의사")
  else
    Except.ok (topNCollapse (aggregate (normalizeTable t)))

/-- Outcome of one pd.read_csv attempt under a fixed encoding: a parsed
table, a UnicodeDecodeError, or any other exception. -/
inductive ReadResult where
  | ok : Table → ReadResult
  | decodeError : ReadResult
  | otherError : ReadResult
deriving DecidableEq

/-- An uploaded file, characterized by what pd.read_csv(file, skiprows=1)
yields under each of the two encodings tried on app.py lines 26 and 28. -/
structure UploadedFile where
  readUtf8 : ReadResult
  readEucKr : ReadResult
deriving DecidableEq

/-- How the ingestion block of app.py lines 25-32 ends: a table, a handled
error (st.error plus return, app.py lines 30-32), or an exception escaping
the try statement uncaught. -/
inductive IngestOutcome where
  | ok : Table → IngestOutcome
  | handledError : IngestOutcome
  | uncaught : ReadResult → IngestOutcome
deriving DecidableEq

/-- app.py lines 25-32.  The first read is tried with utf-8-sig; a
UnicodeDecodeError triggers a second read with euc-kr, and any other
exception of the first read is caught and reported.  The second read runs
inside the except handler, so a Python exception it raises is not caught by
the sibling except clause: it escapes the try statement. -/
def ingest (f : UploadedFile) : IngestOutcome :=
  match f.readUtf8 with
  | ReadResult.ok t => IngestOutcome.ok t
  | ReadResult.decodeError =>
      match f.readEucKr with
      | ReadResult.ok t => IngestOutcome.ok t
      | r => IngestOutcome.uncaught r
  | ReadResult.otherError => IngestOutcome.handledError

/-- A Plotly figure, characterized by what fig.to_image(format="png")
yields: PNG bytes, or none when rasterization raises (app.py lines
157, 167).  Bytes are modelled as lists of naturals. -/
structure Fig where
  toImage : Option (List ℕ)
deriving DecidableEq

/-- Writing a file by name: the name joins the directory listing if new,
and an existing file of that name is overwritten in place. -/
def writeTmp (fs : List String) (name : String) : List String :=
  if name ∈ fs then fs else fs ++ [name]

/-- Content of the assembled PDF.  The FPDF layout calls of app.py lines
176-202 are abstracted to an injective packaging of the two images; no
theorem below inspects PDF bytes. -/
def pdfOutput (barImg pieImg : List ℕ) : List ℕ :=
  barImg ++ pieImg

/-- Where the FPDF assembly of app.py lines 175-210 first raises, if
anywhere.  The whole assembly sits in one try/except that returns None,
and fallible calls occur before the bar_tmp.png write (FPDF construction,
lines 177-178), between the two writes (pdf.cell with Korean text on the
latin-1 core font Arial, pdf.image; lines 186-192), and after the
pie_tmp.png write (pdf.cell, pdf.image, and the latin-1 encode of
pdf.output on line 202).  The source does not determine whether or where
such a call raises — that depends on the fpdf version and environment —
so the model quantifies over the four possibilities. -/
inductive AssemblyFate where
  | failBeforeBar : AssemblyFate
  | failBeforePie : AssemblyFate
  | failAfterPie : AssemblyFate
  | ok : AssemblyFate
deriving DecidableEq

/-- create_pdf_with_charts (app.py lines 144-210) acting on a directory
listing: rasterize the bar chart, rasterize the pie chart, then run the
FPDF assembly, which writes bar_tmp.png, later writes pie_tmp.png, and
returns the PDF bytes unless an exception ends it early (caught by the
except clause of lines 207-210, which returns None).  A rasterization
failure returns None before any file is written.  No branch removes a
file. -/
def createPdfWithCharts (figBar figPie : Fig) (fate : AssemblyFate) (fs : List String) :
    Option (List ℕ) × List String :=
  match figBar.toImage with
  | none => (none, fs)
  | some barImg =>
    match figPie.toImage with
    | none => (none, fs)
    | some pieImg =>
      match fate with
      | AssemblyFate.failBeforeBar => (none, fs)
      | AssemblyFate.failBeforePie => (none, writeTmp fs "bar_tmp.png")
      | AssemblyFate.failAfterPie =>
          (none, writeTmp (writeTmp fs "bar_tmp.png") "pie_tmp.png")
      | AssemblyFate.ok =>
          (some (pdfOutput barImg pieImg),
            writeTmp (writeTmp fs "bar_tmp.png") "pie_tmp.png")

/-- The module-level imports of app.py lines 1-5, plus the traceback
imported locally on line 150.  os is not among them. -/
def importedModules : List String :=
  ["streamlit", "pandas", "plotly.express", "fpdf", "traceback"]

/-- How the CSV-save handler of app.py lines 132-141 ends: the empty-path
message of line 134, an uncaught NameError from evaluating the name os, or
a completed save. -/
inductive SaveOutcome where
  | emptyPathMessage : SaveOutcome
  | uncaughtNameError : SaveOutcome
  | saved : SaveOutcome
deriving DecidableEq

/-- app.py lines 132-141: an empty (stripped) path is rejected with a
message; otherwise the handler evaluates os.path.dirname(save_path), which
resolves the module name os — a name the file never imports, so the lookup
raises NameError, uncaught by any handler. -/
def saveTable (savePath : String) : SaveOutcome :=
  if trimWs savePath.toList = [] then SaveOutcome.emptyPathMessage
  else if importedModules.contains "os" then SaveOutcome.saved
  else SaveOutcome.uncaughtNameError

/-- dedupKeys is Mathlib's List.dedup. -/
theorem dedupKeys_eq_dedup (l : List String) : dedupKeys l = l.dedup := by
  induction l with
  | nil => rfl
  | cons x xs ih =>
    by_cases h : x ∈ xs
    · rw [dedupKeys, if_pos h, ih, List.dedup_cons_of_mem h]
    · rw [dedupKeys, if_neg h, ih, List.dedup_cons_of_not_mem h]

/-- The group counts sum to the number of grouped values. -/
theorem sum_counts_groupCounts (vals : List String) :
    ((groupCounts vals).map Prod.snd).sum = vals.length := by
  rw [groupCounts, List.map_map]
  have h : (Prod.snd ∘ fun k => (k, vals.count k)) = fun k => vals.count k := rfl
  rw [h, dedupKeys_eq_dedup]
  exact List.sum_map_count_dedup_eq_length vals

/-- Sorting by count permutes the grouped rows. -/
theorem sortedCounts_perm (vals : List String) :
    (sortedCounts vals).Perm (groupCounts vals) :=
  List.perm_insertionSort byCountDesc (groupCounts vals)

/-- total_count equals the number of grouped values. -/
theorem totalCount_sortedCounts (vals : List String) :
    totalCount (sortedCounts vals) = vals.length := by
  rw [totalCount, ← sum_counts_groupCounts vals]
  exact ((sortedCounts_perm vals).map Prod.snd).sum_eq

/-- One sorted row per distinct prescriber. -/
theorem length_sortedCounts (vals : List String) :
    (sortedCounts vals).length = vals.dedup.length := by
  rw [(sortedCounts_perm vals).length_eq, groupCounts, List.length_map, dedupKeys_eq_dedup]

/-- Attaching percentages keeps the count column. -/
theorem withPercentages_map_count (l : List (String × ℕ)) :
    (withPercentages l).map SharedRow.count = l.map Prod.snd := by
  rw [withPercentages, List.map_map]
  rfl

/-- Attaching percentages keeps the row count. -/
theorem withPercentages_length (l : List (String × ℕ)) :
    (withPercentages l).length = l.length :=
  List.length_map l _

/-- Summing count/T*100 over rows gives (sum of counts)/T*100. -/
theorem sum_map_div (g : List (String × ℕ)) (T : ℚ) :
    (g.map (fun p => (p.2 : ℚ) / T * 100)).sum = (((g.map Prod.snd).sum : ℕ) : ℚ) / T * 100 := by
  induction g with
  | nil => simp
  | cons x xs ih =>
    simp only [List.map_cons, List.sum_cons, ih]
    push_cast
    ring

/-- The percentage column sums to total/total*100. -/
theorem withPercentages_pct_sum (l : List (String × ℕ)) :
    ((withPercentages l).map SharedRow.percentage).sum
      = (totalCount l : ℚ) / (totalCount l : ℚ) * 100 := by
  rw [withPercentages, List.map_map]
  have h : (SharedRow.percentage ∘
        fun p : String × ℕ => (⟨p.1, p.2, (p.2 : ℚ) / (totalCount l : ℚ) * 100⟩ : SharedRow))
      = fun p : String × ℕ => (p.2 : ℚ) / (totalCount l : ℚ) * 100 := rfl
  rw [h, sum_map_div]
  rfl

/-- Collapsing the tail preserves the sum of counts. -/
theorem topNCollapse_count_sum (l : List SharedRow) :
    ((topNCollapse l).map SharedRow.count).sum = (l.map SharedRow.count).sum := by
  rw [topNCollapse]
  split
  · rw [List.map_append, List.sum_append, List.map_cons, List.map_nil, List.sum_cons,
      List.sum_nil, add_zero, List.map_take, List.map_drop, List.sum_take_add_sum_drop]
  · rfl

/-- Collapsing the tail preserves the sum of percentages. -/
theorem topNCollapse_pct_sum (l : List SharedRow) :
    ((topNCollapse l).map SharedRow.percentage).sum = (l.map SharedRow.percentage).sum := by
  rw [topNCollapse]
  split
  · simp only [List.map_append, List.sum_append, List.map_cons, List.map_nil, List.sum_cons,
      List.sum_nil, add_zero, List.map_take, List.map_drop]
    exact List.sum_take_add_sum_drop _ _
  · rfl

/-- Length of the collapsed table. -/
theorem topNCollapse_length (l : List SharedRow) :
    (topNCollapse l).length = if 10 < l.length then 11 else l.length := by
  rw [topNCollapse]
  split
  · rename_i h
    rw [List.length_append, List.length_take, List.length_cons, List.length_nil,
      Nat.min_eq_left (Nat.le_of_lt h)]
  · rfl

/-- Success of runPipeline, unpacked. -/
theorem runPipeline_ok_iff (t : Table) (final : List SharedRow) :
    runPipeline t = Except.ok final ↔
      ¬ colIndex (normalizeTable t).header "처방의사" = none ∧
        final = topNCollapse (aggregate (normalizeTable t)) := by
  rw [runPipeline]
  split
  · rename_i h
    simp [h]
  · rename_i h
    simp [h, eq_comm]

/-- The sorted grouped rows are pairwise non-increasing in count. -/
theorem sortedCounts_pairwise (vals : List String) :
    (sortedCounts vals).Pairwise byCountDesc :=
  List.sorted_insertionSort byCountDesc (groupCounts vals)

/-- The aggregated rows are pairwise non-increasing in count. -/
theorem aggregate_pairwise (t : Table) :
    (aggregate t).Pairwise (fun a b : SharedRow => b.count ≤ a.count) := by
  rw [aggregate, withPercentages, List.pairwise_map]
  exact sortedCounts_pairwise (prescriberValues t)

/-- One aggregated row per distinct prescriber. -/
theorem aggregate_length (t : Table) :
    (aggregate t).length = (prescriberValues t).dedup.length := by
  rw [aggregate, withPercentages_length, length_sortedCounts]

/-- Length of a filterMap in terms of the rows whose image is present. -/
theorem length_filterMap_eq_length_filter {α β : Type} (f : α → Option β) (l : List α) :
    (l.filterMap f).length = (l.filter (fun r => (f r).isSome)).length := by
  induction l with
  | nil => rfl
  | cons x xs ih =>
    cases hx : f x with
    | none => simp [List.filterMap_cons, List.filter_cons, hx, ih]
    | some v => simp [List.filterMap_cons, List.filter_cons, hx, ih]

/-- The grouped values, once the prescriber column is located. -/
theorem prescriberValues_eq (t : Table) (i : ℕ) (h : colIndex t.header "처방의사" = some i) :
    prescriberValues t = t.rows.filterMap (fun r => cellAt r i) := by
  rw [prescriberValues, h]

/-- Locating a column fails exactly when the label is absent. -/
theorem colIndex_eq_none_iff (header : List String) (name : String) :
    colIndex header name = none ↔ name ∉ header := by
  rw [colIndex, List.findIdx?_eq_none_iff]
  constructor
  · intro h hmem
    have := h name hmem
    simp at this
  · intro h x hx
    simp only [beq_eq_false_iff_ne, ne_eq]
    intro heq
    subst heq
    exact h hx

/-- Evaluation helper: once the prescriber column is present and the sorted
group counts are computed, runPipeline succeeds with their collapsed
percentage table. -/
theorem runPipeline_eval (t : Table) (g : List (String × ℕ))
    (hcol : ¬ colIndex (normalizeTable t).header "처방의사" = none)
    (hg : sortedCounts (prescriberValues (normalizeTable t)) = g) :
    runPipeline t = Except.ok (topNCollapse (withPercentages g)) := by
  rw [runPipeline, if_neg hcol]
  simp only [aggregate, hg]

/-- A clean two-row table, one row of which has a missing prescriber cell. -/
def tNullRow : Table := ⟨["처방의사"], [[some "김"], [none]]⟩

/-- C1 counterexample: on a CleanTable with two rows, one of them with a
missing prescriber cell, the pipeline succeeds and the counts of the
final report sum to 1, not to the CleanTable row count 2. -/
theorem count_sum_ne_cleanRows_cex :
    runPipeline tNullRow = Except.ok (topNCollapse (withPercentages [("김", 1)])) ∧
    ¬ ((topNCollapse (withPercentages [("김", 1)])).map SharedRow.count).sum
        = (normalizeTable tNullRow).rows.length := by
  refine ⟨runPipeline_eval tNullRow _ (by decide) (by decide), ?_⟩
  rw [topNCollapse_count_sum, withPercentages_map_count]
  decide

/-- C1 (amended): whenever runPipeline succeeds, the counts of the final
report sum to the number of CleanTable rows that carry a prescriber value
(rows with a missing prescriber cell are dropped by the groupby), not to
the full CleanTable row count. -/
theorem count_sum_eq_groupedRows (t : Table) (final : List SharedRow)
    (h : runPipeline t = Except.ok final) :
    (final.map SharedRow.count).sum = (prescriberValues (normalizeTable t)).length := by
  obtain ⟨-, rfl⟩ := (runPipeline_ok_iff t final).mp h
  rw [topNCollapse_count_sum, aggregate, withPercentages_map_count]
  exact totalCount_sortedCounts _

/-- C1 witness: the amended statement at the two-row table. -/
theorem count_sum_eq_groupedRows_witness :
    runPipeline tNullRow = Except.ok (topNCollapse (withPercentages [("김", 1)])) ∧
    ((topNCollapse (withPercentages [("김", 1)])).map SharedRow.count).sum
      = (prescriberValues (normalizeTable tNullRow)).length := by
  have h : runPipeline tNullRow = Except.ok (topNCollapse (withPercentages [("김", 1)])) :=
    runPipeline_eval tNullRow _ (by decide) (by decide)
  exact ⟨h, count_sum_eq_groupedRows tNullRow _ h⟩

/-- A table whose only data row is the 합계 grand-total marker row. -/
def tTotalOnly : Table := ⟨["처방의사", "조제일"], [[some "김", some "합계"]]⟩

/-- C4 counterexample: when zero rows survive filtering the pipeline does
not fail — there is no EmptyDatasetError anywhere in the source — and an
empty final report table is produced. -/
theorem empty_dataset_no_error_cex :
    runPipeline tTotalOnly = Except.ok [] ∧ (normalizeTable tTotalOnly).rows.length = 0 :=
  ⟨runPipeline_eval tTotalOnly [] (by decide) (by decide), by decide⟩

/-- C4 (amended): if zero rows survive the Normalizer filtering and the
prescriber column exists, the pipeline succeeds with an empty final report
table: the groupby of an empty frame is empty, so the percentage
assignment divides nothing and no error is raised. -/
theorem empty_clean_ok_empty (t : Table)
    (hrows : (normalizeTable t).rows = [])
    (hcol : ¬ colIndex (normalizeTable t).header "처방의사" = none) :
    runPipeline t = Except.ok [] := by
  have hv : prescriberValues (normalizeTable t) = [] := by
    cases hidx : colIndex (normalizeTable t).header "처방의사" with
    | none => simp [prescriberValues, hidx]
    | some i => simp [prescriberValues, hidx, hrows]
  rw [runPipeline, if_neg hcol]
  simp only [aggregate, hv]
  rfl

/-- C4 witness: the amended statement at the grand-total-only table. -/
theorem empty_clean_ok_empty_witness : runPipeline tTotalOnly = Except.ok [] :=
  empty_clean_ok_empty tTotalOnly (by decide) (by decide)

/-- A table with no column that normalizes to 처방의사. -/
def tMissingCol : Table := ⟨["의사", "조제일"], [[some "김", some "가"]]⟩

/-- C6: when no prescriber column can be located after label
normalization, the pipeline fails with the schema error for 처방의사 and
produces no final report table. -/
theorem missing_prescriber_schemaError (t : Table)
    (h : "처방의사" ∉ (normalizeTable t).header) :
    runPipeline t = Except.error (PipelineError.schemaError "처방의사") ∧
    ∀ final : List SharedRow, runPipeline t ≠ Except.ok final := by
  have hc : colIndex (normalizeTable t).header "처방의사" = none :=
    (colIndex_eq_none_iff _ _).mpr h
  refine ⟨by rw [runPipeline, if_pos hc], ?_⟩
  intro final hok
  rw [runPipeline, if_pos hc] at hok
  exact Except.noConfusion hok

/-- C6 witness: the schema failure at a table lacking the column. -/
theorem missing_prescriber_schemaError_witness :
    runPipeline tMissingCol = Except.error (PipelineError.schemaError "처방의사") :=
  (missing_prescriber_schemaError tMissingCol (by decide)).1

/-- A table with two prescribers of equal count. -/
def tTie : Table := ⟨["처방의사"], [[some "가"], [some "나"]]⟩

/-- The count column of a report table, in row order. -/
def reportCounts (l : List SharedRow) : List ℕ :=
  l.map SharedRow.count

/-- C7 counterexample: two prescribers with one dispensing each give a
final report whose count column is 1, 1 — not strictly decreasing, so rows
preceding any Other row are not strictly sorted. -/
theorem report_counts_not_strict_cex :
    runPipeline tTie = Except.ok (topNCollapse (withPercentages [("가", 1), ("나", 1)])) ∧
    reportCounts (topNCollapse (withPercentages [("가", 1), ("나", 1)])) = [1, 1] ∧
    ¬ (reportCounts (topNCollapse (withPercentages [("가", 1), ("나", 1)]))).Chain'
        (fun a b => b < a) := by
  refine ⟨runPipeline_eval tTie _ (by decide) (by decide), by decide, ?_⟩
  rw [show reportCounts (topNCollapse (withPercentages [("가", 1), ("나", 1)])) = [1, 1]
    from by decide]
  simp [List.chain'_cons]

/-- C7 (amended): in every final report table the count column of the rows
preceding any Other row (the first ten rows) is non-increasing; ties are
possible, so the order is not strict. -/
theorem report_counts_nonincreasing (t : Table) (final : List SharedRow)
    (h : runPipeline t = Except.ok final) :
    (reportCounts (final.take 10)).Chain' (fun a b => b ≤ a) := by
  obtain ⟨-, rfl⟩ := (runPipeline_ok_iff t final).mp h
  have hp := aggregate_pairwise (normalizeTable t)
  have hTake : ((topNCollapse (aggregate (normalizeTable t))).take 10).Pairwise
      (fun a b : SharedRow => b.count ≤ a.count) := by
    rw [topNCollapse]
    split
    · rename_i hlen
      have hlen10 : ((aggregate (normalizeTable t)).take 10).length = 10 := by
        rw [List.length_take]
        exact Nat.min_eq_left (Nat.le_of_lt hlen)
      have htake : (((aggregate (normalizeTable t)).take 10) ++
          [(⟨otherLabel, (((aggregate (normalizeTable t)).drop 10).map SharedRow.count).sum,
            (((aggregate (normalizeTable t)).drop 10).map SharedRow.percentage).sum⟩ :
              SharedRow)]).take 10 = (aggregate (normalizeTable t)).take 10 := by
        rw [List.take_append_of_le_length (by rw [hlen10])]
        rw [List.take_take]
        simp
      rw [htake]
      exact hp.sublist (List.take_sublist 10 _)
    · exact hp.sublist (List.take_sublist 10 _)
  rw [reportCounts]
  exact (List.chain'_map SharedRow.count).mpr hTake.chain'

/-- C7 witness: the amended statement at the tied table. -/
theorem report_counts_nonincreasing_witness :
    runPipeline tTie = Except.ok (topNCollapse (withPercentages [("가", 1), ("나", 1)])) ∧
    (reportCounts ((topNCollapse (withPercentages [("가", 1), ("나", 1)])).take 10)).Chain'
      (fun a b => b ≤ a) := by
  have h : runPipeline tTie = Except.ok (topNCollapse (withPercentages [("가", 1), ("나", 1)])) :=
    runPipeline_eval tTie _ (by decide) (by decide)
  exact ⟨h, report_counts_nonincreasing tTie _ h⟩

/-- Four rows, two prescribers with two dispensings each. -/
def tTwoPairs : Table := ⟨["처방의사"], [[some "가"], [some "가"], [some "나"], [some "나"]]⟩

/-- C2: whenever runPipeline succeeds and at least one row carries a
prescriber value, the percentages of the final report sum to 100 within
the 1e-6 tolerance (in the exact-rational model the sum is exactly 100),
whether or not an Other row was synthesized. -/
theorem pct_sum_eq_100 (t : Table) (final : List SharedRow)
    (h : runPipeline t = Except.ok final)
    (hne : prescriberValues (normalizeTable t) ≠ []) :
    |(final.map SharedRow.percentage).sum - 100| ≤ 1 / 1000000 := by
  obtain ⟨-, rfl⟩ := (runPipeline_ok_iff t final).mp h
  rw [topNCollapse_pct_sum, aggregate, withPercentages_pct_sum, totalCount_sortedCounts]
  have hn : ((prescriberValues (normalizeTable t)).length : ℚ) ≠ 0 :=
    Nat.cast_ne_zero.mpr (fun h0 => hne (List.length_eq_zero.mp h0))
  rw [div_self hn, one_mul]
  norm_num

/-- C2 witness: the percentage-sum bound at the four-row table. -/
theorem pct_sum_eq_100_witness :
    runPipeline tTwoPairs = Except.ok (topNCollapse (withPercentages [("가", 2), ("나", 2)])) ∧
    |((topNCollapse (withPercentages [("가", 2), ("나", 2)])).map SharedRow.percentage).sum - 100|
      ≤ 1 / 1000000 := by
  have h : runPipeline tTwoPairs
      = Except.ok (topNCollapse (withPercentages [("가", 2), ("나", 2)])) :=
    runPipeline_eval tTwoPairs _ (by decide) (by decide)
  exact ⟨h, pct_sum_eq_100 tTwoPairs _ h (by decide)⟩

/-- C3: the collapse step returns the aggregated rows unchanged when there
are at most 10 of them; with more than 10 it keeps the first 10 of the
count-sorted rows — each kept count at least every dropped count — and
appends the single synthetic 기타 row carrying the dropped sums as the
final row; the final table has at most 11 rows, exactly 11 precisely when
the distinct-identity count exceeds 10. -/
theorem topN_collapse_spec (t : Table) (final : List SharedRow)
    (h : runPipeline t = Except.ok final) :
    ((aggregate (normalizeTable t)).length ≤ 10 → final = aggregate (normalizeTable t)) ∧
    (10 < (aggregate (normalizeTable t)).length →
      final = (aggregate (normalizeTable t)).take 10 ++
          [⟨otherLabel, (((aggregate (normalizeTable t)).drop 10).map SharedRow.count).sum,
            (((aggregate (normalizeTable t)).drop 10).map SharedRow.percentage).sum⟩] ∧
      ∀ a ∈ (aggregate (normalizeTable t)).take 10,
        ∀ b ∈ (aggregate (normalizeTable t)).drop 10, b.count ≤ a.count) ∧
    final.length ≤ 11 ∧
    (final.length = 11 ↔ 10 < (prescriberValues (normalizeTable t)).dedup.length) := by
  obtain ⟨-, rfl⟩ := (runPipeline_ok_iff t final).mp h
  refine ⟨?_, ?_, ?_, ?_⟩
  · intro hle
    rw [topNCollapse, if_neg (Nat.not_lt.mpr hle)]
  · intro hlt
    refine ⟨by rw [topNCollapse, if_pos hlt], ?_⟩
    have hp := aggregate_pairwise (normalizeTable t)
    rw [← List.take_append_drop 10 (aggregate (normalizeTable t))] at hp
    exact (List.pairwise_append.mp hp).2.2
  · rw [topNCollapse_length]
    split
    · exact Nat.le_refl 11
    · rename_i hns
      exact Nat.le_trans (Nat.not_lt.mp hns) (by norm_num)
  · rw [topNCollapse_length, aggregate_length]
    split
    · rename_i hlt
      simp [hlt]
    · rename_i hns
      omega

/-- Eleven rows with eleven distinct prescribers. -/
def tEleven : Table :=
  ⟨["처방의사"], [[some "a"], [some "b"], [some "c"], [some "d"], [some "e"], [some "f"],
    [some "g"], [some "h"], [some "i"], [some "j"], [some "k"]]⟩

/-- The sorted group counts of tEleven. -/
def gEleven : List (String × ℕ) :=
  [("a", 1), ("b", 1), ("c", 1), ("d", 1), ("e", 1), ("f", 1), ("g", 1), ("h", 1),
    ("i", 1), ("j", 1), ("k", 1)]

/-- C3 witness: at eleven distinct prescribers the final table has exactly
11 rows. -/
theorem topN_collapse_spec_witness :
    runPipeline tEleven = Except.ok (topNCollapse (withPercentages gEleven)) ∧
    (topNCollapse (withPercentages gEleven)).length ≤ 11 ∧
    (topNCollapse (withPercentages gEleven)).length = 11 := by
  have h : runPipeline tEleven = Except.ok (topNCollapse (withPercentages gEleven)) :=
    runPipeline_eval tEleven _ (by decide) (by decide)
  have hs := topN_collapse_spec tEleven _ h
  exact ⟨h, hs.2.2.1, hs.2.2.2.mpr (by decide)⟩

/-- Rows produced by withPercentages carry count/total*100. -/
theorem mem_withPercentages_pct (l : List (String × ℕ)) (r : SharedRow)
    (h : r ∈ withPercentages l) :
    r.percentage = (r.count : ℚ) / (totalCount l : ℚ) * 100 := by
  rw [withPercentages] at h
  obtain ⟨p, hp, rfl⟩ := List.mem_map.mp h
  rfl

/-- Every row of the collapsed table — the 기타 row included — carries
count/total*100 as its percentage. -/
theorem mem_topNCollapse_pct (l : List (String × ℕ)) (r : SharedRow)
    (h : r ∈ topNCollapse (withPercentages l)) :
    r.percentage = (r.count : ℚ) / (totalCount l : ℚ) * 100 := by
  rw [topNCollapse] at h
  split at h
  · rcases List.mem_append.mp h with h1 | h2
    · exact mem_withPercentages_pct l r (List.mem_of_mem_take h1)
    · have hr : r = ⟨otherLabel, (((withPercentages l).drop 10).map SharedRow.count).sum,
          (((withPercentages l).drop 10).map SharedRow.percentage).sum⟩ := by
        simpa using h2
      subst hr
      have hdrop : ((withPercentages l).drop 10) =
          (l.drop 10).map
            (fun p => (⟨p.1, p.2, (p.2 : ℚ) / (totalCount l : ℚ) * 100⟩ : SharedRow)) := by
        rw [withPercentages, List.map_drop]
      show (((withPercentages l).drop 10).map SharedRow.percentage).sum = _
      rw [hdrop, List.map_map, List.map_map]
      show ((l.drop 10).map (fun p => (p.2 : ℚ) / (totalCount l : ℚ) * 100)).sum = _
      rw [sum_map_div]
      rfl
  · exact mem_withPercentages_pct l r h

/-- C10: rows whose prescriber cell is missing contribute to no group —
the final counts sum to the number of present-prescriber rows only — and
the percentage denominator is that same number (the sum of the group
counts), not the CleanTable row count. -/
theorem null_prescriber_excluded (t : Table) (final : List SharedRow) (i : ℕ)
    (h : runPipeline t = Except.ok final)
    (hi : colIndex (normalizeTable t).header "처방의사" = some i) :
    (final.map SharedRow.count).sum
        = ((normalizeTable t).rows.filter (fun r => (cellAt r i).isSome)).length ∧
    ∀ r ∈ final, r.percentage
        = (r.count : ℚ)
            / ((((normalizeTable t).rows.filter (fun r => (cellAt r i).isSome)).length : ℕ) : ℚ)
            * 100 := by
  have hlen : (prescriberValues (normalizeTable t)).length
      = ((normalizeTable t).rows.filter (fun r => (cellAt r i).isSome)).length := by
    rw [prescriberValues_eq (normalizeTable t) i hi]
    exact length_filterMap_eq_length_filter _ _
  obtain ⟨-, rfl⟩ := (runPipeline_ok_iff t final).mp h
  constructor
  · rw [topNCollapse_count_sum, aggregate, withPercentages_map_count, ← hlen]
    exact totalCount_sortedCounts _
  · intro r hr
    rw [aggregate] at hr
    have hpct := mem_topNCollapse_pct _ r hr
    rw [hpct, totalCount_sortedCounts, hlen]

/-- Three clean rows, one with a missing prescriber cell. -/
def tThirdNull : Table := ⟨["처방의사"], [[some "박"], [none], [some "박"]]⟩

/-- C10 witness: with one of three rows missing its prescriber, the counts
sum to the 2 present-prescriber rows while the CleanTable has 3 rows. -/
theorem null_prescriber_excluded_witness :
    runPipeline tThirdNull = Except.ok (topNCollapse (withPercentages [("박", 2)])) ∧
    ((topNCollapse (withPercentages [("박", 2)])).map SharedRow.count).sum
      = ((normalizeTable tThirdNull).rows.filter (fun r => (cellAt r 0).isSome)).length ∧
    ((normalizeTable tThirdNull).rows.filter (fun r => (cellAt r 0).isSome)).length = 2 ∧
    (normalizeTable tThirdNull).rows.length = 3 := by
  have h : runPipeline tThirdNull = Except.ok (topNCollapse (withPercentages [("박", 2)])) :=
    runPipeline_eval tThirdNull _ (by decide) (by decide)
  exact ⟨h, (null_prescriber_excluded tThirdNull _ 0 h (by decide)).1, by decide, by decide⟩

/-- An upload failing to decode under both encodings. -/
def fBothFail : UploadedFile := ⟨ReadResult.decodeError, ReadResult.decodeError⟩

/-- C5 counterexample: when both decodes fail, the ingestion block does not
end in the handled-error report — the second UnicodeDecodeError escapes the
try statement uncaught. -/
theorem ingest_double_decode_uncaught_cex :
    ingest fBothFail = IngestOutcome.uncaught ReadResult.decodeError ∧
    ingest fBothFail ≠ IngestOutcome.handledError :=
  ⟨rfl, by decide⟩

/-- C5 (amended): a decode failure of the first read triggers exactly one
retry with the fallback encoding, and a non-decode failure of the first
read is caught and reported; but any failure of the fallback read itself —
decode or otherwise — propagates uncaught past the ingestion block, because
it is raised inside the except handler. -/
theorem ingest_fallback_behavior :
    (∀ f : UploadedFile, ∀ t : Table,
      f.readUtf8 = ReadResult.ok t → ingest f = IngestOutcome.ok t) ∧
    (∀ f : UploadedFile, ∀ t : Table, f.readUtf8 = ReadResult.decodeError →
      f.readEucKr = ReadResult.ok t → ingest f = IngestOutcome.ok t) ∧
    (∀ f : UploadedFile, f.readUtf8 = ReadResult.decodeError →
      f.readEucKr = ReadResult.decodeError →
      ingest f = IngestOutcome.uncaught ReadResult.decodeError) ∧
    (∀ f : UploadedFile, f.readUtf8 = ReadResult.decodeError →
      f.readEucKr = ReadResult.otherError →
      ingest f = IngestOutcome.uncaught ReadResult.otherError) ∧
    (∀ f : UploadedFile, f.readUtf8 = ReadResult.otherError →
      ingest f = IngestOutcome.handledError) := by
  refine ⟨?_, ?_, ?_, ?_, ?_⟩
  · intro f t h1
    simp [ingest, h1]
  · intro f t h1 h2
    simp [ingest, h1, h2]
  · intro f h1 h2
    simp [ingest, h1, h2]
  · intro f h1 h2
    simp [ingest, h1, h2]
  · intro f h1
    simp [ingest, h1]

/-- C5 witness: the fallback and uncaught branches at concrete uploads. -/
theorem ingest_fallback_behavior_witness :
    ingest ⟨ReadResult.decodeError, ReadResult.ok ⟨["c"], []⟩⟩
      = IngestOutcome.ok ⟨["c"], []⟩ ∧
    ingest ⟨ReadResult.decodeError, ReadResult.decodeError⟩
      = IngestOutcome.uncaught ReadResult.decodeError ∧
    ingest ⟨ReadResult.otherError, ReadResult.ok ⟨["c"], []⟩⟩ = IngestOutcome.handledError :=
  ⟨ingest_fallback_behavior.2.1 _ _ rfl rfl,
    ingest_fallback_behavior.2.2.1 _ rfl rfl,
    ingest_fallback_behavior.2.2.2.2 _ rfl⟩

/-- A written name is present afterwards. -/
theorem mem_writeTmp_self (fs : List String) (n : String) : n ∈ writeTmp fs n := by
  rw [writeTmp]
  split
  · assumption
  · exact List.mem_append_right _ (List.mem_singleton.mpr rfl)

/-- Writing never removes an existing name. -/
theorem mem_writeTmp_of_mem (fs : List String) (n m : String) (h : m ∈ fs) :
    m ∈ writeTmp fs n := by
  rw [writeTmp]
  split
  · exact h
  · exact List.mem_append_left _ h

/-- Writing an already-present name leaves the listing unchanged. -/
theorem writeTmp_of_mem (fs : List String) (n : String) (h : n ∈ fs) : writeTmp fs n = fs :=
  if_pos h

/-- C8 counterexample: an assembly exception between the two temp-file
writes — a failure path the except clause of app.py lines 207-210 turns
into a None return — leaves bar_tmp.png in the directory at return: no
failure path cleans it up. -/
theorem pdf_temp_files_not_cleaned_cex :
    createPdfWithCharts ⟨some [1]⟩ ⟨some [2]⟩ AssemblyFate.failBeforePie []
      = (none, ["bar_tmp.png"]) ∧
    "bar_tmp.png"
      ∈ (createPdfWithCharts ⟨some [1]⟩ ⟨some [2]⟩ AssemblyFate.failBeforePie []).2 :=
  ⟨rfl, by decide⟩

/-- C8 (amended): create_pdf_with_charts cleans up nothing: wherever the
assembly stops — an exception before either write, between the writes, or
after both, or a normal return — every directory entry present before the
call is still present after it, and each temp chart image whose write was
reached (bar_tmp.png, and pie_tmp.png once its write is reached) remains
in the directory when the function returns.  Because the names are fixed,
an invocation after a successful one overwrites the same files in place
rather than accumulating new ones. -/
theorem pdf_temp_files_persist (figBar figPie : Fig) (fate : AssemblyFate) (fs : List String)
    (barImg pieImg : List ℕ)
    (hb : figBar.toImage = some barImg) (hp : figPie.toImage = some pieImg) :
    (∀ m ∈ fs, m ∈ (createPdfWithCharts figBar figPie fate fs).2) ∧
    (fate ≠ AssemblyFate.failBeforeBar →
      "bar_tmp.png" ∈ (createPdfWithCharts figBar figPie fate fs).2) ∧
    ((fate = AssemblyFate.failAfterPie ∨ fate = AssemblyFate.ok) →
      "pie_tmp.png" ∈ (createPdfWithCharts figBar figPie fate fs).2) ∧
    (createPdfWithCharts figBar figPie fate
        ((createPdfWithCharts figBar figPie AssemblyFate.ok fs).2)).2
      = (createPdfWithCharts figBar figPie AssemblyFate.ok fs).2 := by
  have hbar : "bar_tmp.png" ∈ writeTmp (writeTmp fs "bar_tmp.png") "pie_tmp.png" :=
    mem_writeTmp_of_mem _ _ _ (mem_writeTmp_self fs "bar_tmp.png")
  have hpie : "pie_tmp.png" ∈ writeTmp (writeTmp fs "bar_tmp.png") "pie_tmp.png" :=
    mem_writeTmp_self _ "pie_tmp.png"
  have hok : (createPdfWithCharts figBar figPie AssemblyFate.ok fs).2
      = writeTmp (writeTmp fs "bar_tmp.png") "pie_tmp.png" := by
    rw [createPdfWithCharts, hb, hp]
  cases fate with
  | failBeforeBar =>
    have h1 : (createPdfWithCharts figBar figPie AssemblyFate.failBeforeBar fs).2 = fs := by
      rw [createPdfWithCharts, hb, hp]
    have h2 : (createPdfWithCharts figBar figPie AssemblyFate.failBeforeBar
        ((createPdfWithCharts figBar figPie AssemblyFate.ok fs).2)).2
        = (createPdfWithCharts figBar figPie AssemblyFate.ok fs).2 := by
      rw [createPdfWithCharts, hb, hp]
    refine ⟨fun m hm => by rw [h1]; exact hm, fun hne => absurd rfl hne, fun hor => ?_, h2⟩
    rcases hor with hcase | hcase <;> exact AssemblyFate.noConfusion hcase
  | failBeforePie =>
    have h1 : (createPdfWithCharts figBar figPie AssemblyFate.failBeforePie fs).2
        = writeTmp fs "bar_tmp.png" := by
      rw [createPdfWithCharts, hb, hp]
    have h2 : (createPdfWithCharts figBar figPie AssemblyFate.failBeforePie
        ((createPdfWithCharts figBar figPie AssemblyFate.ok fs).2)).2
        = writeTmp ((createPdfWithCharts figBar figPie AssemblyFate.ok fs).2)
            "bar_tmp.png" := by
      rw [createPdfWithCharts, hb, hp]
    refine ⟨fun m hm => by rw [h1]; exact mem_writeTmp_of_mem fs _ m hm,
      fun _ => by rw [h1]; exact mem_writeTmp_self fs _, fun hor => ?_, ?_⟩
    · rcases hor with hcase | hcase <;> exact AssemblyFate.noConfusion hcase
    · rw [h2, hok, writeTmp_of_mem _ _ hbar]
  | failAfterPie =>
    have h1 : (createPdfWithCharts figBar figPie AssemblyFate.failAfterPie fs).2
        = writeTmp (writeTmp fs "bar_tmp.png") "pie_tmp.png" := by
      rw [createPdfWithCharts, hb, hp]
    have h2 : (createPdfWithCharts figBar figPie AssemblyFate.failAfterPie
        ((createPdfWithCharts figBar figPie AssemblyFate.ok fs).2)).2
        = writeTmp (writeTmp ((createPdfWithCharts figBar figPie AssemblyFate.ok fs).2)
            "bar_tmp.png") "pie_tmp.png" := by
      rw [createPdfWithCharts, hb, hp]
    refine ⟨fun m hm => by
        rw [h1]; exact mem_writeTmp_of_mem _ _ m (mem_writeTmp_of_mem fs _ m hm),
      fun _ => by rw [h1]; exact hbar, fun _ => by rw [h1]; exact hpie, ?_⟩
    rw [h2, hok, writeTmp_of_mem _ _ hbar, writeTmp_of_mem _ _ hpie]
  | ok =>
    have h2 : (createPdfWithCharts figBar figPie AssemblyFate.ok
        ((createPdfWithCharts figBar figPie AssemblyFate.ok fs).2)).2
        = writeTmp (writeTmp ((createPdfWithCharts figBar figPie AssemblyFate.ok fs).2)
            "bar_tmp.png") "pie_tmp.png" := by
      rw [createPdfWithCharts, hb, hp]
    refine ⟨fun m hm => by
        rw [hok]; exact mem_writeTmp_of_mem _ _ m (mem_writeTmp_of_mem fs _ m hm),
      fun _ => by rw [hok]; exact hbar, fun _ => by rw [hok]; exact hpie, ?_⟩
    rw [h2, hok, writeTmp_of_mem _ _ hbar, writeTmp_of_mem _ _ hpie]

/-- C8 witness: the amended statement at concrete exports — one failing
between the writes, one failing after both writes, one after a prior
successful export. -/
theorem pdf_temp_files_persist_witness :
    "bar_tmp.png" ∈ (createPdfWithCharts ⟨some [3]⟩ ⟨some [4]⟩
        AssemblyFate.failBeforePie []).2 ∧
    "pie_tmp.png" ∈ (createPdfWithCharts ⟨some [3]⟩ ⟨some [4]⟩
        AssemblyFate.failAfterPie []).2 ∧
    (createPdfWithCharts ⟨some [3]⟩ ⟨some [4]⟩ AssemblyFate.failBeforePie
        ((createPdfWithCharts ⟨some [3]⟩ ⟨some [4]⟩ AssemblyFate.ok []).2)).2
      = (createPdfWithCharts ⟨some [3]⟩ ⟨some [4]⟩ AssemblyFate.ok []).2 := by
  have h := pdf_temp_files_persist ⟨some [3]⟩ ⟨some [4]⟩ AssemblyFate.failBeforePie []
    [3] [4] rfl rfl
  have h2 := pdf_temp_files_persist ⟨some [3]⟩ ⟨some [4]⟩ AssemblyFate.failAfterPie []
    [3] [4] rfl rfl
  exact ⟨h.2.1 (by decide), h2.2.2.1 (Or.inl rfl), h.2.2.2⟩

/-- C9 (code bug): for every non-empty path the save handler evaluates the
never-imported name os, so it raises an uncaught NameError instead of
saving or reporting a structured I/O failure. -/
theorem save_nonempty_path_nameError :
    saveTable "C:/temp/result.csv" = SaveOutcome.uncaughtNameError ∧
    saveTable "C:/temp/result.csv" ≠ SaveOutcome.saved ∧
    importedModules.contains "os" = false :=
  ⟨by decide, by decide, by decide⟩
